import Mathlib

/-!
# PasswordGenerator: a shallow embedding of `script.js`

The password-construction core of `script.js` (`generatePassword` and
`ensureCharacterTypes`) is embedded as pure Lean functions.

* JavaScript strings are lists of characters (`List Char`); every character the
  program handles is ASCII, so one `Char` is one UTF-16 code unit.
  `s.split('')` and `a.join('')` are therefore the identity.
* The DOM inputs read by `generatePassword` (slider value, five checkboxes) are
  the fields of `Dom`.
* The two random sources are explicit: `crypto.getRandomValues` supplies the
  value stored at each index of the `Uint32Array`, and `Math.random()` supplies
  one number in `[0, 1)` per call, numbered in call order.
* `generatePassword` has three outcomes: the error notification of line 54 (and no
  password), the uncaught `QuotaExceededError` that `crypto.getRandomValues` throws
  inside the deferred callback when the array is longer than 65536 bytes (and no
  password), or the password written to `passwordOutput.value`.
-/

set_option linter.unusedVariables false

namespace PasswordGenerator

/-! ## Character sets (script.js, lines 14-21) -/

/-- The constant `uppercase`. -/
def uppercase : List Char := "ABCDEFGHIJKLMNOPQRSTUVWXYZ".toList

/-- The constant `lowercase`. -/
def lowercase : List Char := "abcdefghijklmnopqrstuvwxyz".toList

/-- The constant `numbers`. -/
def numbers : List Char := "0123456789".toList

/-- The constant `symbols`. -/
def symbols : List Char := "!@#$%^&*()_+-=[]\x7b\x7d|;:,.<>?".toList

/-- The constant `similarCharacters`. -/
def similarCharacters : List Char := "0Oo1Il|i5S2Zz8B6bG9gqCcPpVvWwXxUunmrtf".toList

/-! ## Inputs -/

/-- The DOM state read by `generatePassword`: `parseInt(lengthSlider.value)` and the
`checked` flag of the five checkboxes. -/
structure Dom where
  length : Nat
  uppercaseCheckbox : Bool
  lowercaseCheckbox : Bool
  numbersCheckbox : Bool
  symbolsCheckbox : Bool
  avoidSimilarCheckbox : Bool
  deriving DecidableEq, Repr

/-- One result of `Math.random()`: a number `num / den` with `0 ≤ num / den < 1`.
The product with an array length is taken exactly; the proofs below only use that
`Math.floor(Math.random() * n)` is below `n` for `n > 0` and is `0` for `n = 0`,
which also holds for the rounded double-precision product. -/
structure UnitFloat where
  num : Nat
  den : Nat
  lt_one : num < den
  deriving DecidableEq

/-- The expression `Math.floor(u * n)` for `u` a result of `Math.random()`. -/
def floorMul (u : UnitFloat) (n : Nat) : Nat := u.num * n / u.den

/-- The random sources: `getRandomValues i` is what `crypto.getRandomValues` writes
at index `i` of the array, and `random k` is the result of the `k`-th call of
`Math.random()` (counted from `0`). -/
structure RandomSource where
  getRandomValues : Nat → Nat
  random : Nat → UnitFloat

/-- Element `i` of the `Uint32Array` after `crypto.getRandomValues(array)`: an
unsigned 32-bit value. -/
def uint32Array (rnd : RandomSource) (i : Nat) : Nat := rnd.getRandomValues i % 2 ^ 32

/-! ## `ensureCharacterTypes` (script.js, lines 96-119) -/

/-- The keys `'uppercase'`, `'lowercase'`, `'numbers'`, `'symbols'` of `check.type`. -/
inductive CharType where
  | uppercase
  | lowercase
  | numbers
  | symbols
  deriving DecidableEq, Repr

/-- The `options` object passed to `ensureCharacterTypes`. -/
structure Options where
  uppercase : Bool
  lowercase : Bool
  numbers : Bool
  symbols : Bool
  deriving DecidableEq, Repr

/-- The lookup `options[check.type]`. -/
def Options.get (o : Options) : CharType → Bool
  | .uppercase => o.uppercase
  | .lowercase => o.lowercase
  | .numbers => o.numbers
  | .symbols => o.symbols

/-- The `baseChars` object passed to `ensureCharacterTypes`. -/
structure BaseChars where
  baseUppercase : List Char
  baseLowercase : List Char
  baseNumbers : List Char
  baseSymbols : List Char
  deriving DecidableEq, Repr

/-- The member of `baseChars` that belongs to a character type. -/
def BaseChars.get (b : BaseChars) : CharType → List Char
  | .uppercase => b.baseUppercase
  | .lowercase => b.baseLowercase
  | .numbers => b.baseNumbers
  | .symbols => b.baseSymbols

/-- The expression `a || b` on strings: the empty string is falsy. -/
def jsOr (a b : List Char) : List Char := if a.length = 0 then b else a

/-- One entry `{ type, chars }` of the array `checks`. -/
structure Check where
  type : CharType
  chars : List Char

/-- The array `checks` of `ensureCharacterTypes`, in source order. -/
def checks (baseChars : BaseChars) : List Check :=
  [ ⟨.uppercase, jsOr baseChars.baseUppercase uppercase⟩,
    ⟨.lowercase, jsOr baseChars.baseLowercase lowercase⟩,
    ⟨.numbers, jsOr baseChars.baseNumbers numbers⟩,
    ⟨.symbols, jsOr baseChars.baseSymbols symbols⟩ ]

/-- The assignment `a[i] = c` on an array of characters, for `i ≤ a.length`: an
index inside the array overwrites that element, the index `a.length` appends one
element. (`ensureCharacterTypes` only assigns at `Math.floor(Math.random() * a.length)`,
which is inside the array, or is `0` when the array is empty.) -/
def arrayAssign (a : List Char) (i : Nat) (c : Char) : List Char :=
  if i < a.length then a.set i c else a ++ [c]

/-- The state of the loop of `ensureCharacterTypes`: the array `newPassword` and the
number of calls of `Math.random()` made so far. -/
structure RepairState where
  newPassword : List Char
  calls : Nat
  deriving DecidableEq

/-- One iteration of `for (const check of checks)`. -/
def repairStep (options : Options) (random : Nat → UnitFloat)
    (st : RepairState) (check : Check) : RepairState :=
  if h : options.get check.type = true ∧ 0 < check.chars.length then
    let hasType := st.newPassword.any (fun char => check.chars.contains char)
    if !hasType then
      let randomIndex := floorMul (random st.calls) st.newPassword.length
      let randomChar :=
        check.chars.get ⟨floorMul (random (st.calls + 1)) check.chars.length,
          Nat.div_lt_of_lt_mul (Nat.mul_lt_mul_of_pos_right (random (st.calls + 1)).lt_one h.2)⟩
      ⟨arrayAssign st.newPassword randomIndex randomChar, st.calls + 2⟩
    else st
  else st

/-- The function `ensureCharacterTypes(password, charset, options, baseChars)`; `calls`
is the number of calls of `Math.random()` made before it runs. -/
def ensureCharacterTypes (password charset : List Char) (options : Options)
    (baseChars : BaseChars) (random : Nat → UnitFloat) (calls : Nat) : List Char :=
  ((checks baseChars).foldl (repairStep options random) ⟨password, calls⟩).newPassword

/-! ## `generatePassword` (script.js, lines 29-93) -/

/-- The filter `s.split('').filter(char => !similarCharacters.includes(char)).join('')`. -/
def filterSimilar (s : List Char) : List Char :=
  s.filter (fun char => !similarCharacters.contains char)

/-- The variables `baseUppercase`, `baseLowercase`, `baseNumbers`, `baseSymbols` after
lines 34-45 (the effective alphabets). -/
def baseChars (avoidSimilar : Bool) : BaseChars :=
  if avoidSimilar then
    ⟨filterSimilar uppercase, filterSimilar lowercase, filterSimilar numbers,
      filterSimilar symbols⟩
  else ⟨uppercase, lowercase, numbers, symbols⟩

/-- The variable `charset` after lines 47-50. -/
def buildCharset (dom : Dom) : List Char :=
  let b := baseChars dom.avoidSimilarCheckbox
  let charset : List Char := []
  let charset := if dom.uppercaseCheckbox then charset ++ b.baseUppercase else charset
  let charset := if dom.lowercaseCheckbox then charset ++ b.baseLowercase else charset
  let charset := if dom.numbersCheckbox then charset ++ b.baseNumbers else charset
  let charset := if dom.symbolsCheckbox then charset ++ b.baseSymbols else charset
  charset

/-- The string appended by `password += s[k]`: the character at index `k`, or the
text `undefined` when `k` is not an index of `s`. -/
def appendIndexed (s : List Char) (k : Nat) : List Char :=
  match s[k]? with
  | some c => [c]
  | none => "undefined".toList

/-- The loop of lines 63-69: the candidate password. -/
def candidate (charset : List Char) (array : Nat → Nat) (length : Nat) : List Char :=
  (List.range length).foldl
    (fun password i => password ++ appendIndexed charset (array i % charset.length)) []

/-- The options object built at lines 72-77. -/
def Dom.options (dom : Dom) : Options :=
  ⟨dom.uppercaseCheckbox, dom.lowercaseCheckbox, dom.numbersCheckbox, dom.symbolsCheckbox⟩

/-- The calls `new Uint32Array(length)` and `crypto.getRandomValues(array)` of lines
64-65. `crypto.getRandomValues` throws a `QuotaExceededError` when the byte length of the
array, here `4 * length`, is greater than 65536; otherwise the array holds `length`
unsigned 32-bit values. (For a length beyond the engine limit for typed arrays the
allocation of line 64 throws first; either way the callback ends with an uncaught
exception.) -/
def cryptoGetRandomValues (rnd : RandomSource) (length : Nat) : Except String (Nat → Nat) :=
  if 65536 < 4 * length then Except.error "QuotaExceededError"
  else Except.ok (uint32Array rnd)

/-- The function `generatePassword`. `Except.ok` carries the password assigned to
`passwordOutput.value` by the deferred callback. `Except.error` is a run that produces
no password: with the message of line 54 it is the error notification; with
`QuotaExceededError` it is the exception thrown at line 65, which nothing catches, so
the callback stops before line 67. -/
def generatePassword (dom : Dom) (rnd : RandomSource) : Except String (List Char) :=
  let charset := buildCharset dom
  if charset.length = 0 then
    Except.error "Please select at least one character type"
  else
    match cryptoGetRandomValues rnd dom.length with
    | Except.error e => Except.error e
    | Except.ok array =>
      let password := candidate charset array dom.length
      Except.ok
        (ensureCharacterTypes password charset dom.options
          (baseChars dom.avoidSimilarCheckbox) rnd.random 0)

/-! ## Vocabulary of the properties -/

/-- The character types in the order in which `generatePassword` appends their
alphabets and `ensureCharacterTypes` checks them. -/
def classOrder : List CharType := [.uppercase, .lowercase, .numbers, .symbols]

/-- The index of a character type in `checks` (and in `classOrder`). -/
def CharType.position : CharType → Nat
  | .uppercase => 0
  | .lowercase => 1
  | .numbers => 2
  | .symbols => 3

/-- The full alphabet of a character type: the constants of lines 15-18. -/
def alphabet : CharType → List Char
  | .uppercase => uppercase
  | .lowercase => lowercase
  | .numbers => numbers
  | .symbols => symbols

/-- A random source whose every `Uint32` draw is `v` and whose every `Math.random()`
is `1/64`. -/
def constSource (v : Nat) : RandomSource := ⟨fun _ => v, fun _ => ⟨1, 64, by decide⟩⟩

/-- A random source that agrees with `constSource 52` on every value that a run of length 12 reads, and
differs from it everywhere else. -/
def otherSource : RandomSource :=
  ⟨fun i => if i < 12 then 52 + 2 ^ 32 else 9,
    fun k => if k < 8 then ⟨1, 64, by decide⟩ else ⟨1, 2, by decide⟩⟩

/-- The inputs length 12, uppercase, lowercase and numbers checked, symbols and
avoid-similar unchecked. -/
def domThreeClasses : Dom := ⟨12, true, true, true, false, false⟩

/-- The inputs length 8, only uppercase checked, avoid-similar checked. -/
def domUpperAvoid : Dom := ⟨8, true, false, false, false, true⟩

/-- The inputs length 0, only uppercase checked. -/
def domLengthZero : Dom := ⟨0, true, false, false, false, false⟩

/-- The inputs length 16385, only uppercase checked: one element more than
`crypto.getRandomValues` accepts. -/
def domQuota : Dom := ⟨16385, true, false, false, false, false⟩

/-- The inputs length 16385, lowercase and numbers checked, avoid-similar checked. -/
def domQuotaAvoid : Dom := ⟨16385, false, true, true, false, true⟩

/-! ## Auxiliary facts -/

theorem floorMul_lt (u : UnitFloat) {n : Nat} (h : 0 < n) : floorMul u n < n :=
  Nat.div_lt_of_lt_mul (Nat.mul_lt_mul_of_pos_right u.lt_one h)

theorem floorMul_zero (u : UnitFloat) : floorMul u 0 = 0 := by
  simp [floorMul]

/-- The index at which `ensureCharacterTypes` assigns is never past the end of the
array, so the assignment never leaves a hole. -/
theorem floorMul_le (u : UnitFloat) (n : Nat) : floorMul u n ≤ n := by
  cases n with
  | zero => rw [floorMul_zero]
  | succ n => exact Nat.le_of_lt (floorMul_lt u (Nat.succ_pos n))

theorem arrayAssign_length_of_lt {a : List Char} {i : Nat} (c : Char) (h : i < a.length) :
    (arrayAssign a i c).length = a.length := by
  simp [arrayAssign, h]

theorem arrayAssign_mem_self (a : List Char) (i : Nat) (c : Char) :
    c ∈ arrayAssign a i c := by
  unfold arrayAssign
  split
  · next h => exact List.mem_set a i h c
  · simp

theorem mem_of_mem_arrayAssign {a : List Char} {i : Nat} {c x : Char}
    (h : x ∈ arrayAssign a i c) : x ∈ a ∨ x = c := by
  unfold arrayAssign at h
  split at h
  · exact List.mem_or_eq_of_mem_set h
  · simpa using h

/-- The test `newPassword.some(char => check.chars.includes(char))` as a proposition. -/
theorem hasType_iff (pw chars : List Char) :
    pw.any (fun char => chars.contains char) = true ↔ ∃ c ∈ pw, c ∈ chars := by
  simp [List.any_eq_true]

/-- The loop body with its local bindings unfolded. -/
theorem repairStep_eq (options : Options) (random : Nat → UnitFloat)
    (st : RepairState) (check : Check) :
    repairStep options random st check =
      if h : options.get check.type = true ∧ 0 < check.chars.length then
        if st.newPassword.any (fun char => check.chars.contains char) = true then st
        else
          ⟨arrayAssign st.newPassword (floorMul (random st.calls) st.newPassword.length)
            (check.chars.get ⟨floorMul (random (st.calls + 1)) check.chars.length,
              floorMul_lt _ h.2⟩), st.calls + 2⟩
      else st := by
  unfold repairStep
  by_cases h : options.get check.type = true ∧ 0 < check.chars.length
  · rw [dif_pos h, dif_pos h]
    by_cases hh : st.newPassword.any (fun char => check.chars.contains char) = true
    · simp only [hh, Bool.not_true, if_true]
      rfl
    · simp only [hh, if_false]
      simp only [Bool.not_eq_true] at hh
      simp only [hh, Bool.not_false, if_true, Bool.false_eq_true, if_false]
  · rw [dif_neg h, dif_neg h]

theorem repairStep_of_disabled (options : Options) (random : Nat → UnitFloat)
    (st : RepairState) (check : Check) (h : options.get check.type = false) :
    repairStep options random st check = st := by
  simp [repairStep_eq, h]

theorem repairStep_of_hasType (options : Options) (random : Nat → UnitFloat)
    (st : RepairState) (check : Check) (h : ∃ c ∈ st.newPassword, c ∈ check.chars) :
    repairStep options random st check = st := by
  have h2 := (hasType_iff st.newPassword check.chars).2 h
  rw [repairStep_eq]
  split
  · simp only [h2, if_true]
  · rfl

theorem repairStep_length (options : Options) (random : Nat → UnitFloat)
    (st : RepairState) (check : Check) (h : 0 < st.newPassword.length) :
    (repairStep options random st check).newPassword.length = st.newPassword.length := by
  rw [repairStep_eq]
  split
  · split
    · rfl
    · exact arrayAssign_length_of_lt _ (floorMul_lt _ h)
  · rfl

theorem repairStep_mem (options : Options) (random : Nat → UnitFloat)
    (st : RepairState) (check : Check) {x : Char}
    (h : x ∈ (repairStep options random st check).newPassword) :
    x ∈ st.newPassword ∨ (options.get check.type = true ∧ x ∈ check.chars) := by
  rw [repairStep_eq] at h
  split at h
  · next hc =>
    split at h
    · exact Or.inl h
    · rcases mem_of_mem_arrayAssign h with h1 | h1
      · exact Or.inl h1
      · exact Or.inr ⟨hc.1, h1 ▸ List.get_mem _ _ _⟩
  · exact Or.inl h

theorem repairStep_covers (options : Options) (random : Nat → UnitFloat)
    (st : RepairState) (check : Check) (he : options.get check.type = true)
    (hne : 0 < check.chars.length) :
    ∃ c ∈ (repairStep options random st check).newPassword, c ∈ check.chars := by
  by_cases hh : st.newPassword.any (fun char => check.chars.contains char) = true
  · have := (hasType_iff _ _).1 hh
    rw [repairStep_of_hasType _ _ _ _ this]
    exact this
  · rw [repairStep_eq, dif_pos ⟨he, hne⟩, if_neg hh]
    exact ⟨_, arrayAssign_mem_self _ _ _, List.get_mem _ _ _⟩

theorem repairStep_calls_le (options : Options) (random : Nat → UnitFloat)
    (st : RepairState) (check : Check) :
    (repairStep options random st check).calls ≤ st.calls + 2 := by
  rw [repairStep_eq]
  split
  · split
    · exact Nat.le_add_right _ _
    · exact Nat.le_refl _
  · exact Nat.le_add_right _ _

/-- The loop body only reads the next two results of `Math.random()`. -/
theorem repairStep_congr (options : Options) (r1 r2 : Nat → UnitFloat)
    (st : RepairState) (check : Check)
    (h0 : r1 st.calls = r2 st.calls) (h1 : r1 (st.calls + 1) = r2 (st.calls + 1)) :
    repairStep options r1 st check = repairStep options r2 st check := by
  rw [repairStep_eq, repairStep_eq]
  split
  · split
    · rfl
    · simp only [h0, h1]
  · rfl

/-- The whole loop only reads the first `2 * checks.length` results of `Math.random()`
after the calls already made. -/
theorem foldl_repairStep_congr (options : Options) (r1 r2 : Nat → UnitFloat)
    (l : List Check) (st : RepairState)
    (h : ∀ k, k < st.calls + 2 * l.length → r1 k = r2 k) :
    l.foldl (repairStep options r1) st = l.foldl (repairStep options r2) st := by
  induction l generalizing st with
  | nil => rfl
  | cons check l ih =>
    simp only [List.foldl_cons, List.length_cons] at h ⊢
    rw [repairStep_congr options r1 r2 st check (h _ (by omega)) (h _ (by omega))]
    apply ih
    intro k hk
    have := repairStep_calls_le options r2 st check
    exact h k (by omega)

theorem foldl_repairStep_length (options : Options) (random : Nat → UnitFloat)
    (l : List Check) (st : RepairState) (h : 0 < st.newPassword.length) :
    (l.foldl (repairStep options random) st).newPassword.length = st.newPassword.length := by
  induction l generalizing st with
  | nil => rfl
  | cons check l ih =>
    simp only [List.foldl_cons]
    have hs := repairStep_length options random st check h
    rw [ih _ (hs ▸ h), hs]

theorem foldl_repairStep_mem (options : Options) (random : Nat → UnitFloat)
    (l : List Check) (st : RepairState) {x : Char}
    (h : x ∈ (l.foldl (repairStep options random) st).newPassword) :
    x ∈ st.newPassword ∨ ∃ check ∈ l, options.get check.type = true ∧ x ∈ check.chars := by
  induction l generalizing st with
  | nil => exact Or.inl h
  | cons check l ih =>
    simp only [List.foldl_cons] at h
    rcases ih _ h with h1 | ⟨c, hc, h2⟩
    · rcases repairStep_mem options random st check h1 with h3 | h3
      · exact Or.inl h3
      · exact Or.inr ⟨check, List.mem_cons_self _ _, h3⟩
    · exact Or.inr ⟨c, List.mem_cons_of_mem _ hc, h2⟩

/-- A loop over checks that are all satisfied (or disabled) changes nothing. -/
theorem foldl_repairStep_unchanged (options : Options) (random : Nat → UnitFloat)
    (l : List Check) (st : RepairState)
    (h : ∀ check ∈ l, options.get check.type = true →
      ∃ c ∈ st.newPassword, c ∈ check.chars) :
    l.foldl (repairStep options random) st = st := by
  induction l with
  | nil => rfl
  | cons check l ih =>
    simp only [List.foldl_cons]
    have hstep : repairStep options random st check = st := by
      cases he : options.get check.type with
      | false => exact repairStep_of_disabled _ _ _ _ he
      | true => exact repairStep_of_hasType _ _ _ _ (h check (List.mem_cons_self _ _) he)
    rw [hstep]
    exact ih (fun c hc => h c (List.mem_cons_of_mem _ hc))

/-- A loop over disabled checks changes nothing. -/
theorem foldl_repairStep_disabled (options : Options) (random : Nat → UnitFloat)
    (l : List Check) (st : RepairState)
    (h : ∀ check ∈ l, options.get check.type = false) :
    l.foldl (repairStep options random) st = st := by
  apply foldl_repairStep_unchanged
  intro check hc he
  rw [h check hc] at he
  cases he

/-! ### The effective alphabets and the combined charset -/

theorem baseChars_length_pos (avoidSimilar : Bool) (t : CharType) :
    0 < ((baseChars avoidSimilar).get t).length := by
  cases avoidSimilar <;> cases t <;> decide

/-- With the effective alphabets as `baseChars`, no `||` fallback is taken: every
check carries the effective alphabet of its type. -/
theorem checks_baseChars (avoidSimilar : Bool) :
    checks (baseChars avoidSimilar) =
      [ ⟨.uppercase, (baseChars avoidSimilar).get .uppercase⟩,
        ⟨.lowercase, (baseChars avoidSimilar).get .lowercase⟩,
        ⟨.numbers, (baseChars avoidSimilar).get .numbers⟩,
        ⟨.symbols, (baseChars avoidSimilar).get .symbols⟩ ] := by
  cases avoidSimilar <;> rfl

theorem chars_of_mem_checks (avoidSimilar : Bool) {check : Check}
    (h : check ∈ checks (baseChars avoidSimilar)) :
    check.chars = (baseChars avoidSimilar).get check.type := by
  rw [checks_baseChars] at h
  simp only [List.mem_cons, List.mem_singleton, List.not_mem_nil, or_false] at h
  rcases h with h | h | h | h <;> rw [h]

theorem buildCharset_eq_flatMap (dom : Dom) :
    buildCharset dom =
      (classOrder.filter (fun t => dom.options.get t)).flatMap
        (fun t => (baseChars dom.avoidSimilarCheckbox).get t) := by
  obtain ⟨len, u, l, n, s, a⟩ := dom
  cases u <;> cases l <;> cases n <;> cases s <;>
    simp [buildCharset, classOrder, Dom.options, Options.get, BaseChars.get, List.flatMap]

theorem mem_classOrder (t : CharType) : t ∈ classOrder := by
  cases t <;> simp [classOrder]

theorem mem_buildCharset (dom : Dom) (x : Char) :
    x ∈ buildCharset dom ↔
      ∃ t, dom.options.get t = true ∧ x ∈ (baseChars dom.avoidSimilarCheckbox).get t := by
  rw [buildCharset_eq_flatMap, List.mem_flatMap]
  constructor
  · rintro ⟨t, ht, hx⟩
    exact ⟨t, (List.mem_filter.1 ht).2, hx⟩
  · rintro ⟨t, ht, hx⟩
    exact ⟨t, List.mem_filter.2 ⟨mem_classOrder t, ht⟩, hx⟩

theorem buildCharset_length_pos (dom : Dom) {t : CharType}
    (h : dom.options.get t = true) : 0 < (buildCharset dom).length := by
  have hp := baseChars_length_pos dom.avoidSimilarCheckbox t
  have hx : ((baseChars dom.avoidSimilarCheckbox).get t).get ⟨0, hp⟩ ∈ buildCharset dom :=
    (mem_buildCharset dom _).2 ⟨t, h, List.get_mem _ _ _⟩
  exact List.length_pos_of_mem hx

theorem buildCharset_eq_nil_iff (dom : Dom) :
    (buildCharset dom).length = 0 ↔ ∀ t, dom.options.get t = false := by
  constructor
  · intro h t
    cases ht : dom.options.get t with
    | false => rfl
    | true => exact absurd h (Nat.pos_iff_ne_zero.1 (buildCharset_length_pos dom ht))
  · intro h
    have hu := h .uppercase
    have hl := h .lowercase
    have hn := h .numbers
    have hs := h .symbols
    simp only [Dom.options, Options.get] at hu hl hn hs
    simp [buildCharset, hu, hl, hn, hs]

/-! ### The candidate loop -/

theorem appendIndexed_of_lt {s : List Char} {k : Nat} (h : k < s.length) :
    appendIndexed s k = [s.get ⟨k, h⟩] := by
  simp [appendIndexed, List.getElem?_eq_getElem h]

theorem candidate_succ (charset : List Char) (array : Nat → Nat) (n : Nat) :
    candidate charset array (n + 1) =
      candidate charset array n ++ appendIndexed charset (array n % charset.length) := by
  simp [candidate, List.range_succ, List.foldl_append]

theorem candidate_length (charset : List Char) (array : Nat → Nat) (n : Nat)
    (h : 0 < charset.length) : (candidate charset array n).length = n := by
  induction n with
  | zero => rfl
  | succ n ih =>
    rw [candidate_succ, List.length_append, ih, appendIndexed_of_lt (Nat.mod_lt _ h)]
    rfl

theorem candidate_getElem? (charset : List Char) (array : Nat → Nat) (n : Nat)
    (h : 0 < charset.length) (i : Nat) (hi : i < n) :
    (candidate charset array n)[i]? = charset[array i % charset.length]? := by
  induction n with
  | zero => omega
  | succ n ih =>
    rw [candidate_succ, appendIndexed_of_lt (Nat.mod_lt _ h)]
    by_cases hlt : i < n
    · rw [List.getElem?_append_left (by rw [candidate_length _ _ _ h]; exact hlt)]
      exact ih hlt
    · have hin : i = n := by omega
      subst hin
      rw [List.getElem?_append_right (by rw [candidate_length _ _ _ h])]
      simp [candidate_length _ _ _ h, List.getElem?_eq_getElem (Nat.mod_lt _ h)]

theorem mem_candidate (charset : List Char) (array : Nat → Nat) (n : Nat)
    (h : 0 < charset.length) {x : Char} (hx : x ∈ candidate charset array n) :
    x ∈ charset := by
  induction n with
  | zero => simp [candidate] at hx
  | succ n ih =>
    rw [candidate_succ, appendIndexed_of_lt (Nat.mod_lt _ h), List.mem_append] at hx
    rcases hx with hx | hx
    · exact ih hx
    · rw [List.mem_singleton] at hx
      exact hx ▸ List.get_mem _ _ _

theorem cryptoGetRandomValues_of_le (rnd : RandomSource) {length : Nat}
    (h : length ≤ 16384) : cryptoGetRandomValues rnd length = Except.ok (uint32Array rnd) := by
  have hq : ¬ 65536 < 4 * length := by omega
  simp only [cryptoGetRandomValues, hq, if_false]

theorem cryptoGetRandomValues_of_gt (rnd : RandomSource) {length : Nat}
    (h : 16384 < length) :
    cryptoGetRandomValues rnd length = Except.error "QuotaExceededError" := by
  have hq : 65536 < 4 * length := by omega
  simp only [cryptoGetRandomValues, hq, if_true]

/-- The function `generatePassword` when some class is enabled and the array is within
the quota of `crypto.getRandomValues`. -/
theorem generatePassword_of_enabled (dom : Dom) (rnd : RandomSource) {t : CharType}
    (h : dom.options.get t = true) (hq : dom.length ≤ 16384) :
    generatePassword dom rnd =
      Except.ok (ensureCharacterTypes
        (candidate (buildCharset dom) (uint32Array rnd) dom.length) (buildCharset dom)
        dom.options (baseChars dom.avoidSimilarCheckbox) rnd.random 0) := by
  have := buildCharset_length_pos dom h
  simp only [generatePassword, Nat.pos_iff_ne_zero.1 this, if_false,
    cryptoGetRandomValues_of_le rnd hq]

/-- The function `generatePassword` when some class is enabled and the array is beyond
the quota of `crypto.getRandomValues`. -/
theorem generatePassword_of_quota (dom : Dom) (rnd : RandomSource) {t : CharType}
    (h : dom.options.get t = true) (hq : 16384 < dom.length) :
    generatePassword dom rnd = Except.error "QuotaExceededError" := by
  have := buildCharset_length_pos dom h
  simp only [generatePassword, Nat.pos_iff_ne_zero.1 this, if_false,
    cryptoGetRandomValues_of_gt rnd hq]

/-- The function `generatePassword` when no class is enabled. -/
theorem generatePassword_of_disabled (dom : Dom) (rnd : RandomSource)
    (h : ∀ t, dom.options.get t = false) :
    generatePassword dom rnd = Except.error "Please select at least one character type" := by
  have := (buildCharset_eq_nil_iff dom).2 h
  simp only [generatePassword, this, if_true]

/-- A password is produced only within the quota, and it is the repaired candidate. -/
theorem eq_of_generatePassword_eq_ok (dom : Dom) (rnd : RandomSource) {t : CharType}
    (h : dom.options.get t = true) {password : List Char}
    (hok : generatePassword dom rnd = Except.ok password) :
    dom.length ≤ 16384 ∧
    password = ensureCharacterTypes
      (candidate (buildCharset dom) (uint32Array rnd) dom.length) (buildCharset dom)
      dom.options (baseChars dom.avoidSimilarCheckbox) rnd.random 0 := by
  by_cases hq : dom.length ≤ 16384
  · rw [generatePassword_of_enabled dom rnd h hq] at hok
    exact ⟨hq, (Except.ok.inj hok).symm⟩
  · rw [generatePassword_of_quota dom rnd h (Nat.lt_of_not_le hq)] at hok
    cases hok

/-- The error notification is shown exactly when no class is enabled. -/
theorem generatePassword_eq_notification_iff (dom : Dom) (rnd : RandomSource) :
    generatePassword dom rnd = Except.error "Please select at least one character type" ↔
      ∀ t, dom.options.get t = false := by
  constructor
  · intro h t
    cases ht : dom.options.get t with
    | false => rfl
    | true =>
      by_cases hq : dom.length ≤ 16384
      · rw [generatePassword_of_enabled dom rnd ht hq] at h
        cases h
      · rw [generatePassword_of_quota dom rnd ht (Nat.lt_of_not_le hq)] at h
        exact absurd (Except.error.inj h) (by decide)
  · exact generatePassword_of_disabled dom rnd

/-! ### Facts used by several properties -/

theorem candidate_congr (charset : List Char) (a1 a2 : Nat → Nat) (n : Nat)
    (h : ∀ i, i < n → a1 i = a2 i) : candidate charset a1 n = candidate charset a2 n := by
  induction n with
  | zero => rfl
  | succ n ih =>
    rw [candidate_succ, candidate_succ, ih (fun i hi => h i (Nat.lt_succ_of_lt hi)),
      h n (Nat.lt_succ_self n)]

theorem mem_alphabet_of_mem_baseChars (avoidSimilar : Bool) (t : CharType) {x : Char}
    (h : x ∈ (baseChars avoidSimilar).get t) : x ∈ alphabet t := by
  cases avoidSimilar
  · cases t <;> exact h
  · cases t <;> exact (List.mem_filter.1 h).1

theorem not_similar_of_mem_baseChars (t : CharType) {x : Char}
    (h : x ∈ (baseChars true).get t) : x ∉ similarCharacters := by
  have h2 : x ∈ filterSimilar (alphabet t) := by cases t <;> exact h
  have h3 := (List.mem_filter.1 h2).2
  intro hx
  simp [hx] at h3

theorem alphabet_disjoint (t t' : CharType) (hne : t ≠ t') :
    ∀ x ∈ alphabet t, x ∉ alphabet t' := by
  cases t <;> cases t' <;> first | exact absurd rfl hne | decide

/-- Every character of the output of `generatePassword` is in the effective alphabet
of an enabled class. -/
theorem mem_generatePassword (dom : Dom) (rnd : RandomSource) {t : CharType}
    (ht : dom.options.get t = true) {x : Char}
    (hx : x ∈ ensureCharacterTypes
      (candidate (buildCharset dom) (uint32Array rnd) dom.length) (buildCharset dom)
      dom.options (baseChars dom.avoidSimilarCheckbox) rnd.random 0) :
    ∃ t', dom.options.get t' = true ∧ x ∈ (baseChars dom.avoidSimilarCheckbox).get t' := by
  rcases foldl_repairStep_mem _ _ _ _ hx with h | ⟨check, hc, he, hm⟩
  · exact (mem_buildCharset dom x).1
      (mem_candidate _ _ _ (buildCharset_length_pos dom ht) h)
  · exact ⟨check.type, he, chars_of_mem_checks _ hc ▸ hm⟩

/-- Starting from the empty array, a loop with at least one enabled check ends with
exactly one character. -/
theorem foldl_repairStep_nil_length (options : Options) (random : Nat → UnitFloat)
    (l : List Check) (calls : Nat) (hpos : ∀ check ∈ l, 0 < check.chars.length)
    (hen : ∃ check ∈ l, options.get check.type = true) :
    (l.foldl (repairStep options random) ⟨[], calls⟩).newPassword.length = 1 := by
  induction l generalizing calls with
  | nil => obtain ⟨c, hc, _⟩ := hen; cases hc
  | cons check l ih =>
    simp only [List.foldl_cons]
    cases he : options.get check.type with
    | true =>
      have hp := hpos check (List.mem_cons_self _ _)
      have h1 : (repairStep options random ⟨[], calls⟩ check).newPassword.length = 1 := by
        rw [repairStep_eq, dif_pos ⟨he, hp⟩]
        simp [arrayAssign]
      rw [foldl_repairStep_length _ _ _ _ (by rw [h1]; exact Nat.one_pos), h1]
    | false =>
      rw [repairStep_of_disabled _ _ _ _ he]
      apply ih _ (fun c hc => hpos c (List.mem_cons_of_mem _ hc))
      obtain ⟨c, hc, hce⟩ := hen
      rcases List.mem_cons.1 hc with h | h
      · rw [h, he] at hce; cases hce
      · exact ⟨c, h, hce⟩

/-! ## The properties -/

/-- C1 (counterexample): with length 16385 and uppercase checked the configuration is
valid, yet `generatePassword` returns no string at all: the `Uint32Array` has 65540
bytes, `crypto.getRandomValues` throws `QuotaExceededError`, and no password of 16385
characters is produced. -/
theorem generatePassword_length_quota :
    (1 ≤ domQuota.length ∧ domQuota.options.get .uppercase = true) ∧
    generatePassword domQuota (constSource 52) = Except.error "QuotaExceededError" ∧
    ¬ ∃ password, generatePassword domQuota (constSource 52) = Except.ok password ∧
      password.length = domQuota.length := by
  have h : generatePassword domQuota (constSource 52) = Except.error "QuotaExceededError" :=
    rfl
  refine ⟨⟨by decide, rfl⟩, h, ?_⟩
  rintro ⟨password, hok, _⟩
  rw [h] at hok
  cases hok

/-- C1 (amended): for every configuration with length at least 1 and at most 16384 and
at least one class enabled, and for every outcome of the random draws,
`generatePassword` produces a password, and that password has exactly `length`
characters. -/
theorem generatePassword_length (dom : Dom) (rnd : RandomSource)
    (hlen : 1 ≤ dom.length) (hquota : dom.length ≤ 16384)
    (hen : ∃ t, dom.options.get t = true) :
    ∃ password, generatePassword dom rnd = Except.ok password ∧
      password.length = dom.length := by
  obtain ⟨t, ht⟩ := hen
  refine ⟨_, generatePassword_of_enabled dom rnd ht hquota, ?_⟩
  have hc := candidate_length (buildCharset dom) (uint32Array rnd) dom.length
    (buildCharset_length_pos dom ht)
  unfold ensureCharacterTypes
  rw [foldl_repairStep_length _ _ _ _ (by rw [hc]; exact hlen), hc]

theorem generatePassword_length_witness :
    (1 ≤ domThreeClasses.length ∧ domThreeClasses.length ≤ 16384 ∧
      domThreeClasses.options.get .uppercase = true) ∧
    ∃ password, generatePassword domThreeClasses (constSource 52) = Except.ok password ∧
      password.length = domThreeClasses.length :=
  ⟨⟨by decide, by decide, rfl⟩,
    generatePassword_length domThreeClasses (constSource 52) (by decide) (by decide)
      ⟨.uppercase, rfl⟩⟩

/-- C2: for every configuration with length at least 1 and at least one class enabled,
and for every outcome of the random draws, every character of the final password lies in
the effective alphabet of some enabled class, and in the alphabet of no disabled class.
This holds of every password that `generatePassword` produces, and one is produced
whenever the length is within the quota of `crypto.getRandomValues`. -/
theorem generatePassword_chars (dom : Dom) (rnd : RandomSource)
    (hlen : 1 ≤ dom.length) (hen : ∃ t, dom.options.get t = true) :
    (∀ password, generatePassword dom rnd = Except.ok password →
      ∀ c ∈ password,
        (∃ t, dom.options.get t = true ∧ c ∈ (baseChars dom.avoidSimilarCheckbox).get t) ∧
        (∀ t, dom.options.get t = false → c ∉ alphabet t)) ∧
    (dom.length ≤ 16384 → ∃ password, generatePassword dom rnd = Except.ok password) := by
  obtain ⟨t, ht⟩ := hen
  refine ⟨?_, fun hq => ⟨_, generatePassword_of_enabled dom rnd ht hq⟩⟩
  intro password hok c hc
  rw [(eq_of_generatePassword_eq_ok dom rnd ht hok).2] at hc
  obtain ⟨t', ht', hm⟩ := mem_generatePassword dom rnd ht hc
  refine ⟨⟨t', ht', hm⟩, ?_⟩
  intro t2 ht2
  have hne : t' ≠ t2 := by
    intro h
    rw [h, ht2] at ht'
    cases ht'
  exact alphabet_disjoint t' t2 hne c (mem_alphabet_of_mem_baseChars _ _ hm)

theorem generatePassword_chars_witness :
    (1 ≤ domThreeClasses.length ∧ domThreeClasses.options.get .lowercase = true) ∧
    ((∀ password, generatePassword domThreeClasses (constSource 52) = Except.ok password →
      ∀ c ∈ password,
        (∃ t, domThreeClasses.options.get t = true ∧
          c ∈ (baseChars domThreeClasses.avoidSimilarCheckbox).get t) ∧
        (∀ t, domThreeClasses.options.get t = false → c ∉ alphabet t)) ∧
    (domThreeClasses.length ≤ 16384 →
      ∃ password, generatePassword domThreeClasses (constSource 52) = Except.ok password)) ∧
    generatePassword domThreeClasses (constSource 52) = Except.ok "a00000000000".toList :=
  ⟨⟨by decide, rfl⟩,
    generatePassword_chars domThreeClasses (constSource 52) (by decide) ⟨.lowercase, rfl⟩,
    rfl⟩

/-- C3 (evaluation at a failing input): with length 12, uppercase, lowercase and numbers
enabled, every `Uint32` draw equal to 52 and every `Math.random()` equal to 1/64, the
password is `a00000000000`. The candidate is `000000000000`; the uppercase repair writes
`A` at position 0, the lowercase repair overwrites it with `a`, and the final password
has no uppercase letter although uppercase is enabled. -/
theorem generatePassword_collision :
    (domThreeClasses.length = 12 ∧ domThreeClasses.options = ⟨true, true, true, false⟩) ∧
    generatePassword domThreeClasses (constSource 52) = Except.ok "a00000000000".toList ∧
    domThreeClasses.options.get .uppercase = true ∧
    ¬ ∃ c ∈ "a00000000000".toList, c ∈ (baseChars false).get .uppercase :=
  ⟨⟨rfl, rfl⟩, rfl, rfl, by decide⟩

/-- C4: for every configuration with avoid-similar checked, length at least 1 and at
least one class enabled, and for every outcome of the random draws, no character of the
final password is one of `similarCharacters`; when uppercase is the only enabled class,
every character is an uppercase letter that is not similar, that is, one of
`ADEFHJKLMNQRTY`. This holds of every password that `generatePassword` produces, and
one is produced whenever the length is within the quota of `crypto.getRandomValues`. -/
theorem generatePassword_avoidSimilar (dom : Dom) (rnd : RandomSource)
    (havoid : dom.avoidSimilarCheckbox = true)
    (hlen : 1 ≤ dom.length) (hen : ∃ t, dom.options.get t = true) :
    (∀ password, generatePassword dom rnd = Except.ok password →
      (∀ c ∈ password, c ∉ similarCharacters) ∧
      (dom.options = ⟨true, false, false, false⟩ →
        ∀ c ∈ password,
          (c ∈ uppercase ∧ c ∉ similarCharacters) ∧ c ∈ "ADEFHJKLMNQRTY".toList)) ∧
    (dom.length ≤ 16384 → ∃ password, generatePassword dom rnd = Except.ok password) := by
  obtain ⟨t, ht⟩ := hen
  refine ⟨?_, fun hq => ⟨_, generatePassword_of_enabled dom rnd ht hq⟩⟩
  intro password hok
  rw [(eq_of_generatePassword_eq_ok dom rnd ht hok).2]
  refine ⟨?_, ?_⟩
  · intro c hc
    obtain ⟨t', _, hm⟩ := mem_generatePassword dom rnd ht hc
    rw [havoid] at hm
    exact not_similar_of_mem_baseChars t' hm
  · intro hopt c hc
    obtain ⟨t', ht', hm⟩ := mem_generatePassword dom rnd ht hc
    rw [havoid] at hm
    rw [hopt] at ht'
    cases t' <;> simp only [Options.get, Bool.false_eq_true] at ht'
    have hu : (baseChars true).get .uppercase = "ADEFHJKLMNQRTY".toList := by decide
    exact ⟨⟨mem_alphabet_of_mem_baseChars true .uppercase hm,
      not_similar_of_mem_baseChars .uppercase hm⟩, hu ▸ hm⟩

theorem generatePassword_avoidSimilar_witness :
    (domUpperAvoid.avoidSimilarCheckbox = true ∧ 1 ≤ domUpperAvoid.length ∧
      domUpperAvoid.options = ⟨true, false, false, false⟩) ∧
    ((∀ password, generatePassword domUpperAvoid (constSource 52) = Except.ok password →
      (∀ c ∈ password, c ∉ similarCharacters) ∧
      (domUpperAvoid.options = ⟨true, false, false, false⟩ →
        ∀ c ∈ password,
          (c ∈ uppercase ∧ c ∉ similarCharacters) ∧ c ∈ "ADEFHJKLMNQRTY".toList)) ∧
    (domUpperAvoid.length ≤ 16384 →
      ∃ password, generatePassword domUpperAvoid (constSource 52) = Except.ok password)) ∧
    generatePassword domUpperAvoid (constSource 52) = Except.ok "QQQQQQQQ".toList :=
  ⟨⟨rfl, by decide, rfl⟩,
    generatePassword_avoidSimilar domUpperAvoid (constSource 52) rfl (by decide)
      ⟨.uppercase, rfl⟩,
    rfl⟩

/-- C5 (counterexample): with length 16385, lowercase and numbers checked and
avoid-similar checked, a class is enabled and `generatePassword` still does not succeed:
it ends in the uncaught `QuotaExceededError` (not in the error notification) and
produces no password. -/
theorem generatePassword_quota_fails :
    (1 ≤ domQuotaAvoid.length ∧ domQuotaAvoid.options.get .lowercase = true) ∧
    generatePassword domQuotaAvoid (constSource 7) = Except.error "QuotaExceededError" ∧
    ¬ ∃ password, generatePassword domQuotaAvoid (constSource 7) = Except.ok password := by
  have h : generatePassword domQuotaAvoid (constSource 7) =
      Except.error "QuotaExceededError" := rfl
  refine ⟨⟨by decide, rfl⟩, h, ?_⟩
  rintro ⟨password, hok⟩
  rw [h] at hok
  cases hok

/-- C5 (amended): for every length at least 1 and either value of avoid-similar,
`generatePassword` ends in the error notification `Please select at least one character
type` (and produces no password) if and only if no class is enabled: it fails whenever
the combined charset is empty, every effective alphabet is non-empty, and it produces a
password whenever some class is enabled and the length is at most 16384. -/
theorem generatePassword_error_iff (dom : Dom) (rnd : RandomSource)
    (hlen : 1 ≤ dom.length) :
    (generatePassword dom rnd = Except.error "Please select at least one character type" ↔
      ∀ t, dom.options.get t = false) ∧
    ((buildCharset dom).length = 0 →
      generatePassword dom rnd = Except.error "Please select at least one character type") ∧
    (∀ t, 0 < ((baseChars dom.avoidSimilarCheckbox).get t).length) ∧
    (dom.length ≤ 16384 → (∃ t, dom.options.get t = true) →
      ∃ password, generatePassword dom rnd = Except.ok password) := by
  refine ⟨generatePassword_eq_notification_iff dom rnd, ?_, baseChars_length_pos _, ?_⟩
  · intro h
    exact generatePassword_of_disabled dom rnd ((buildCharset_eq_nil_iff dom).1 h)
  · rintro hq ⟨t, ht⟩
    exact ⟨_, generatePassword_of_enabled dom rnd ht hq⟩

theorem generatePassword_error_iff_witness :
    1 ≤ domUpperAvoid.length ∧
    ((generatePassword domUpperAvoid (constSource 7) =
        Except.error "Please select at least one character type" ↔
      ∀ t, domUpperAvoid.options.get t = false) ∧
    ((buildCharset domUpperAvoid).length = 0 →
      generatePassword domUpperAvoid (constSource 7) =
        Except.error "Please select at least one character type") ∧
    (∀ t, 0 < ((baseChars domUpperAvoid.avoidSimilarCheckbox).get t).length) ∧
    (domUpperAvoid.length ≤ 16384 → (∃ t, domUpperAvoid.options.get t = true) →
      ∃ password, generatePassword domUpperAvoid (constSource 7) = Except.ok password)) ∧
    (domUpperAvoid.length ≤ 16384 ∧ domUpperAvoid.options.get .uppercase = true) :=
  ⟨by decide, generatePassword_error_iff domUpperAvoid (constSource 7) (by decide),
    by decide, rfl⟩

/-- C6 (counterexample): with length 0 and only uppercase checked, `generatePassword`
does not end in the error notification; it produces the password `A`. -/
theorem generatePassword_lengthZero_ok :
    domLengthZero.length = 0 ∧
    generatePassword domLengthZero (constSource 52) = Except.ok "A".toList ∧
    generatePassword domLengthZero (constSource 52) ≠
      Except.error "Please select at least one character type" := by
  refine ⟨rfl, rfl, ?_⟩
  intro h
  have h2 : generatePassword domLengthZero (constSource 52) = Except.ok "A".toList := rfl
  rw [h2] at h
  cases h

/-- C6 (amended): for every configuration with length 0, `generatePassword` ends in the
error notification if and only if no class is enabled; the length is not validated, and
with some class enabled a password is produced. -/
theorem generatePassword_lengthZero (dom : Dom) (rnd : RandomSource)
    (hzero : dom.length = 0) :
    (generatePassword dom rnd = Except.error "Please select at least one character type" ↔
      ∀ t, dom.options.get t = false) ∧
    ((∃ t, dom.options.get t = true) →
      generatePassword dom rnd =
        Except.ok (ensureCharacterTypes [] (buildCharset dom) dom.options
          (baseChars dom.avoidSimilarCheckbox) rnd.random 0)) := by
  refine ⟨generatePassword_eq_notification_iff dom rnd, ?_⟩
  rintro ⟨t, ht⟩
  rw [generatePassword_of_enabled dom rnd ht (by rw [hzero]; exact Nat.zero_le _), hzero]
  rfl

theorem generatePassword_lengthZero_witness :
    domLengthZero.length = 0 ∧
    ((generatePassword domLengthZero (constSource 3) =
        Except.error "Please select at least one character type" ↔
      ∀ t, domLengthZero.options.get t = false) ∧
    ((∃ t, domLengthZero.options.get t = true) →
      generatePassword domLengthZero (constSource 3) =
        Except.ok (ensureCharacterTypes [] (buildCharset domLengthZero) domLengthZero.options
          (baseChars domLengthZero.avoidSimilarCheckbox) (constSource 3).random 0))) :=
  ⟨rfl, generatePassword_lengthZero domLengthZero (constSource 3) rfl⟩

/-- C7: for every configuration with at least one class enabled, the combined charset
is the concatenation of the effective alphabets of the enabled classes in the order
uppercase, lowercase, numbers, symbols; for every sequence of drawn 32-bit values the
candidate password has `length` characters, its character `i` is the charset character
at index `r_i mod |charset|`, and every such index is inside the charset. Every password
that `generatePassword` produces is the result of `ensureCharacterTypes` on that
candidate, and one is produced whenever `crypto.getRandomValues` can draw `length`
values (length at most 16384). -/
theorem candidate_spec (dom : Dom) (rnd : RandomSource)
    (hen : ∃ t, dom.options.get t = true) :
    buildCharset dom =
      (classOrder.filter (fun t => dom.options.get t)).flatMap
        (fun t => (baseChars dom.avoidSimilarCheckbox).get t) ∧
    (candidate (buildCharset dom) (uint32Array rnd) dom.length).length = dom.length ∧
    (∀ i, i < dom.length →
      uint32Array rnd i < 2 ^ 32 ∧
      uint32Array rnd i % (buildCharset dom).length < (buildCharset dom).length ∧
      (candidate (buildCharset dom) (uint32Array rnd) dom.length)[i]? =
        (buildCharset dom)[uint32Array rnd i % (buildCharset dom).length]?) ∧
    (∀ password, generatePassword dom rnd = Except.ok password →
      password = ensureCharacterTypes
        (candidate (buildCharset dom) (uint32Array rnd) dom.length) (buildCharset dom)
        dom.options (baseChars dom.avoidSimilarCheckbox) rnd.random 0) ∧
    (dom.length ≤ 16384 →
      generatePassword dom rnd =
        Except.ok (ensureCharacterTypes
          (candidate (buildCharset dom) (uint32Array rnd) dom.length) (buildCharset dom)
          dom.options (baseChars dom.avoidSimilarCheckbox) rnd.random 0)) := by
  obtain ⟨t, ht⟩ := hen
  have hpos := buildCharset_length_pos dom ht
  refine ⟨buildCharset_eq_flatMap dom, candidate_length _ _ _ hpos, ?_,
    fun password hok => (eq_of_generatePassword_eq_ok dom rnd ht hok).2,
    generatePassword_of_enabled dom rnd ht⟩
  intro i hi
  exact ⟨Nat.mod_lt _ (by decide), Nat.mod_lt _ hpos, candidate_getElem? _ _ _ hpos i hi⟩

theorem candidate_spec_witness :
    domThreeClasses.options.get .numbers = true ∧
    (buildCharset domThreeClasses =
      (classOrder.filter (fun t => domThreeClasses.options.get t)).flatMap
        (fun t => (baseChars domThreeClasses.avoidSimilarCheckbox).get t) ∧
    (candidate (buildCharset domThreeClasses) (uint32Array (constSource 52))
      domThreeClasses.length).length = domThreeClasses.length ∧
    (∀ i, i < domThreeClasses.length →
      uint32Array (constSource 52) i < 2 ^ 32 ∧
      uint32Array (constSource 52) i % (buildCharset domThreeClasses).length <
        (buildCharset domThreeClasses).length ∧
      (candidate (buildCharset domThreeClasses) (uint32Array (constSource 52))
        domThreeClasses.length)[i]? =
        (buildCharset domThreeClasses)[uint32Array (constSource 52) i %
          (buildCharset domThreeClasses).length]?) ∧
    (∀ password, generatePassword domThreeClasses (constSource 52) = Except.ok password →
      password = ensureCharacterTypes
        (candidate (buildCharset domThreeClasses) (uint32Array (constSource 52))
          domThreeClasses.length) (buildCharset domThreeClasses)
        domThreeClasses.options (baseChars domThreeClasses.avoidSimilarCheckbox)
        (constSource 52).random 0) ∧
    (domThreeClasses.length ≤ 16384 →
      generatePassword domThreeClasses (constSource 52) =
        Except.ok (ensureCharacterTypes
          (candidate (buildCharset domThreeClasses) (uint32Array (constSource 52))
            domThreeClasses.length) (buildCharset domThreeClasses)
          domThreeClasses.options (baseChars domThreeClasses.avoidSimilarCheckbox)
          (constSource 52).random 0))) ∧
    candidate (buildCharset domThreeClasses) (uint32Array (constSource 52))
      domThreeClasses.length = "000000000000".toList :=
  ⟨rfl, candidate_spec domThreeClasses (constSource 52) ⟨.numbers, rfl⟩, rfl⟩

/-- C8: determinism. Two runs of `generatePassword` on the same configuration whose
random sources agree on the `length` values of the `Uint32Array` and on the first eight
results of `Math.random()` (the repair pass makes at most two calls per class) have the
same outcome, hence the same password. -/
theorem generatePassword_deterministic (dom : Dom) (r1 r2 : RandomSource)
    (hdraws : ∀ i, i < dom.length → uint32Array r1 i = uint32Array r2 i)
    (hpicks : ∀ k, k < 8 → r1.random k = r2.random k) :
    generatePassword dom r1 = generatePassword dom r2 := by
  have hc := candidate_congr (buildCharset dom) _ _ _ hdraws
  have hf := foldl_repairStep_congr dom.options r1.random r2.random
    (checks (baseChars dom.avoidSimilarCheckbox))
    ⟨candidate (buildCharset dom) (uint32Array r2) dom.length, 0⟩
    (fun k hk => hpicks k (by simpa [checks] using hk))
  by_cases hq : 65536 < 4 * dom.length
  · simp only [generatePassword, cryptoGetRandomValues, hq, if_true]
  · simp only [generatePassword, cryptoGetRandomValues, hq, if_false, ensureCharacterTypes,
      hc, hf]

theorem generatePassword_deterministic_witness :
    ((∀ i, i < domThreeClasses.length →
        uint32Array (constSource 52) i = uint32Array otherSource i) ∧
      (∀ k, k < 8 → (constSource 52).random k = otherSource.random k)) ∧
    generatePassword domThreeClasses (constSource 52) =
      generatePassword domThreeClasses otherSource :=
  have hdraws : ∀ i, i < domThreeClasses.length →
      uint32Array (constSource 52) i = uint32Array otherSource i := by
    intro i hi
    have hi2 : i < 12 := hi
    simp [uint32Array, constSource, otherSource, hi2]
  have hpicks : ∀ k, k < 8 → (constSource 52).random k = otherSource.random k := by
    intro k hk
    simp [constSource, otherSource, hk]
  ⟨⟨hdraws, hpicks⟩,
    generatePassword_deterministic domThreeClasses (constSource 52) otherSource hdraws hpicks⟩

/-- C9: for every candidate password and every set of enabled classes (with the
effective alphabets of either avoid-similar setting), if the candidate already contains a
character of the effective alphabet of each enabled class, `ensureCharacterTypes` returns
the candidate unchanged, whatever the results of `Math.random()`. -/
theorem ensureCharacterTypes_unchanged (password charset : List Char) (options : Options)
    (avoidSimilar : Bool) (random : Nat → UnitFloat) (calls : Nat)
    (h : ∀ t, options.get t = true →
      ∃ c ∈ password, c ∈ (baseChars avoidSimilar).get t) :
    ensureCharacterTypes password charset options (baseChars avoidSimilar) random calls =
      password := by
  unfold ensureCharacterTypes
  rw [foldl_repairStep_unchanged]
  intro check hc he
  rw [chars_of_mem_checks avoidSimilar hc]
  exact h check.type he

theorem ensureCharacterTypes_unchanged_witness :
    (∀ t, (Options.mk true true true false).get t = true →
      ∃ c ∈ "aB3aB3".toList, c ∈ (baseChars false).get t) ∧
    ensureCharacterTypes "aB3aB3".toList (buildCharset domThreeClasses)
      ⟨true, true, true, false⟩ (baseChars false) (constSource 0).random 0 =
      "aB3aB3".toList :=
  have h : ∀ t, (Options.mk true true true false).get t = true →
      ∃ c ∈ "aB3aB3".toList, c ∈ (baseChars false).get t := by
    intro t ht
    cases t
    · exact ⟨'B', by decide, by decide⟩
    · exact ⟨'a', by decide, by decide⟩
    · exact ⟨'3', by decide, by decide⟩
    · cases ht
  ⟨h, ensureCharacterTypes_unchanged _ _ _ false _ 0 h⟩

/-- C10: for every candidate password of length at least 1, every set of enabled classes
and every result of `Math.random()`, the output of `ensureCharacterTypes` contains a
character of the effective alphabet of the enabled class that comes last in the order
uppercase, lowercase, numbers, symbols (every class after it is disabled); in particular
the class of a configuration with exactly one enabled class is covered. -/
theorem ensureCharacterTypes_covers_last (password charset : List Char) (options : Options)
    (avoidSimilar : Bool) (random : Nat → UnitFloat) (calls : Nat)
    (hlen : 1 ≤ password.length) (t : CharType) (ht : options.get t = true)
    (hlast : ∀ t', t.position < t'.position → options.get t' = false) :
    ∃ c ∈ ensureCharacterTypes password charset options (baseChars avoidSimilar) random calls,
      c ∈ (baseChars avoidSimilar).get t := by
  unfold ensureCharacterTypes
  rw [checks_baseChars]
  have hp := baseChars_length_pos avoidSimilar
  cases t
  · have h1 := hlast .lowercase (by decide)
    have h2 := hlast .numbers (by decide)
    have h3 := hlast .symbols (by decide)
    simp only [List.foldl_cons, List.foldl_nil]
    rw [repairStep_of_disabled _ _ _ ⟨.symbols, _⟩ h3,
      repairStep_of_disabled _ _ _ ⟨.numbers, _⟩ h2,
      repairStep_of_disabled _ _ _ ⟨.lowercase, _⟩ h1]
    exact repairStep_covers _ _ _ ⟨.uppercase, _⟩ ht (hp .uppercase)
  · have h2 := hlast .numbers (by decide)
    have h3 := hlast .symbols (by decide)
    simp only [List.foldl_cons, List.foldl_nil]
    rw [repairStep_of_disabled _ _ _ ⟨.symbols, _⟩ h3,
      repairStep_of_disabled _ _ _ ⟨.numbers, _⟩ h2]
    exact repairStep_covers _ _ _ ⟨.lowercase, _⟩ ht (hp .lowercase)
  · have h3 := hlast .symbols (by decide)
    simp only [List.foldl_cons, List.foldl_nil]
    rw [repairStep_of_disabled _ _ _ ⟨.symbols, _⟩ h3]
    exact repairStep_covers _ _ _ ⟨.numbers, _⟩ ht (hp .numbers)
  · simp only [List.foldl_cons, List.foldl_nil]
    exact repairStep_covers _ _ _ ⟨.symbols, _⟩ ht (hp .symbols)

theorem ensureCharacterTypes_covers_last_witness :
    (1 ≤ "000".toList.length ∧ (Options.mk true true true false).get .numbers = true ∧
      ∀ t', CharType.numbers.position < t'.position →
        (Options.mk true true true false).get t' = false) ∧
    ∃ c ∈ ensureCharacterTypes "000".toList (buildCharset domThreeClasses)
        ⟨true, true, true, false⟩ (baseChars false) (constSource 0).random 0,
      c ∈ (baseChars false).get .numbers :=
  have hlast : ∀ t', CharType.numbers.position < t'.position →
      (Options.mk true true true false).get t' = false := by
    intro t' h
    cases t'
    · exact absurd h (by decide)
    · exact absurd h (by decide)
    · exact absurd h (by decide)
    · rfl
  ⟨⟨by decide, rfl, hlast⟩,
    ensureCharacterTypes_covers_last _ _ _ false _ 0 (by decide) .numbers rfl hlast⟩

end PasswordGenerator
